import Mathlib

/-!
Verification of the launcher utility `api/py/ai/chronon/repo/run.py`.

The development shallowly embeds the pieces of `run.py` that carry the
configuration-resolution and routing logic:

* a small JSON model (`Json`) covering the shapes that `teams.json` and the
  conf documents use (objects whose leaves are strings or null);
* the layered environment resolution `set_runtime_env` (lines 166-233);
* the static routing table `ROUTES` and the two-level lookup the `Runner`
  performs (lines 44-69, 259-261, 279);
* the streaming dedup check of `Runner.run` (lines 286-308);
* the retry wrapper `retry_decorator` (lines 74-91) as a call trace;
* the size-comparison guard of `download_only_once` (lines 104-123).

Python exceptions are modelled with `Except String`; the process environment
is a total function `String → Option String` (present/absent), and the
in-memory layer dictionaries are association lists in insertion order,
mirroring Python dict iteration order.
-/

/-- JSON values as they appear in the documents `run.py` reads.  Environment
values in the documents are strings or null; nested levels are objects.
(Other JSON leaf types are not exercised by the launcher and are outside the
model; `os.environ` assignment would reject non-string values anyway.) -/
inductive Json where
  | null : Json
  | str : String → Json
  | obj : List (String × Json) → Json

/-- First-match association-list lookup (Python dict lookup; keys of parsed
JSON objects and of the static tables are unique). -/
def alookup {α : Type} : List (String × α) → String → Option α
  | [], _ => none
  | kv :: rest, k => if kv.1 = k then some kv.2 else alookup rest k

/-- `d.get(k)` on a JSON object: `some` the value when the key is present,
`none` otherwise (also `none` on non-objects). -/
def Json.find? : Json → String → Option Json
  | .obj entries, k => alookup entries k
  | _, _ => none

/-- `d.get(k, default)` on a JSON object. -/
def Json.getD (j : Json) (k : String) (d : Json) : Json := (j.find? k).getD d

/-- The empty JSON object `{}` used as a `.get` default throughout. -/
def emptyObj : Json := Json.obj []

/-- A JSON leaf as an environment value: strings are usable values, `null`
is Python `None` (skipped by the merge loop's `value is not None` guard). -/
def Json.toEnvValue : Json → Option String
  | .str s => some s
  | _ => none

/-- One environment layer: an insertion-ordered mapping from variable name to
value (`none` models Python `None`). -/
abbrev Layer := List (String × Option String)

/-- A JSON object as an environment layer. -/
def Json.toLayer : Json → Layer
  | .obj entries => entries.map (fun kv => (kv.1, kv.2.toEnvValue))
  | _ => []

/-- Python dict item assignment `l[k] = v`: replace in place when the key is
present, append otherwise. -/
def Layer.setItem (l : Layer) (k : String) (v : Option String) : Layer :=
  if (alookup l k).isSome then
    l.map (fun kv => if kv.1 = k then (k, v) else kv)
  else
    l ++ [(k, v)]

/-- The process environment `os.environ`: variable name to optional value. -/
abbrev Env := String → Option String

/-- `os.environ[k] = v`. -/
def Env.set (env : Env) (k v : String) : Env :=
  fun k' => if k' = k then some v else env k'

/-- The inner body of the merge loop (run.py lines 229-233): for each item of
a layer in insertion order, set the variable only if the process environment
does not already define it and the value is not `None`. -/
def applyLayer (env : Env) (l : Layer) : Env :=
  l.foldl (fun env kv =>
    match kv.2 with
    | some value => if env kv.1 = none then env.set kv.1 value else env
    | none => env) env

/-- The value the merge loop would take from a single layer for variable `k`
if `k` were unset: the first non-null occurrence of `k` in the layer. -/
def Layer.firstSet : Layer → String → Option String
  | [], _ => none
  | (k', some v) :: rest, k => if k' = k then some v else Layer.firstSet rest k
  | (_, none) :: rest, k => Layer.firstSet rest k

/-- The value a sequence of layers contributes for `k`: the first layer with
a non-null occurrence of `k` wins, because `applyLayer` writes into the
environment that later layers are checked against. -/
def layersFirstSet : List Layer → String → Option String
  | [], _ => none
  | l :: ls, k =>
    match Layer.firstSet l k with
    | some v => some v
    | none => layersFirstSet ls k

/-- The CLI arguments `set_runtime_env` consults (run.py argparse defaults:
absent/empty strings are falsy). -/
structure Args where
  repo : Option String
  conf : Option String
  mode : Option String
  app_name : Option String
  chronon_jar : Option String
  online_jar : Option String
  online_class : Option String

/-- Python truthiness of an optional string argument. -/
def truthy : Option String → Bool
  | none => false
  | some s => if s = "" then false else true

/-- `str.split(sep)` for a one-character separator, on the character list. -/
def splitChars (sep : Char) : List Char → List (List Char)
  | [] => [[]]
  | c :: rest =>
    match splitChars sep rest with
    | [] => [[c]]
    | h :: t => if c = sep then [] :: h :: t else (c :: h) :: t

/-- Python `s.split(sep)` for a one-character separator. -/
def pySplit (s : String) (sep : Char) : List String :=
  (splitChars sep s.data).map (fun cs => String.mk cs)

/-- Python `l[-n:]`: the last `n` elements (all of them when shorter). -/
def lastN {α : Type} (l : List α) (n : Nat) : List α := l.drop (l.length - n)

/-- The four-way unpacking `context, conf_type, team, _ = conf.split('/')[-4:]`
(run.py line 196): succeeds exactly on a four-element list, the `ValueError`
of Python unpacking is `none`. -/
def split4 : List String → Option (String × String × String × String)
  | [context, conf_type, team, name] => some (context, conf_type, team, name)
  | _ => none

/-- `APP_NAME_TEMPLATE.format(...)` (run.py line 71):
`chronon_{conf_type}_{mode}_{context}_{name}`. -/
def APP_NAME_TEMPLATE (conf_type mode context name : String) : String :=
  "chronon_" ++ conf_type ++ "_" ++ mode ++ "_" ++ context ++ "_" ++ name

/-- Extraction of the conf layer (run.py line 206):
`conf_json.get('metaData').get('modeToEnvMap', {}).get(mode, {})`.
A missing `metaData` key makes the first `.get` return Python `None`, so the
second `.get` raises `AttributeError` (likewise when `metaData` is not an
object); only a missing `modeToEnvMap` or mode level yields `{}`. -/
def extractConfEnv (conf_json : Json) (mode : String) : Except String Layer :=
  match conf_json.find? "metaData" with
  | some (Json.obj mdEntries) =>
    .ok ((((Json.obj mdEntries).getD "modeToEnvMap" emptyObj).getD mode emptyObj).toLayer)
  | _ => .error "AttributeError: conf metaData is missing or not an object"

/-- Extraction of the team layer (run.py line 207):
`teams_json[team].get(context, {}).get(mode, {})`.  The team level is bracket
indexing: a missing team key raises `KeyError`; the context and mode levels
use `.get` with `{}` defaults. -/
def extractTeamEnv (teams_json : Json) (team context mode : String) : Except String Layer :=
  match teams_json.find? team with
  | none => .error ("KeyError: " ++ team)
  | some teamObj =>
    .ok (((teamObj.getD context emptyObj).getD mode emptyObj).toLayer)

/-- The five layer dictionaries built by `set_runtime_env` (run.py
lines 181-187); all start empty. -/
structure Environment where
  common_env : Layer := []
  conf_env : Layer := []
  default_env : Layer := []
  team_env : Layer := []
  cli_args : Layer := []

/-- run.py lines 188-214: load `teams.json` and the conf document and fill
the `common_env`, `conf_env`, `team_env`, `default_env` layers plus the
derived `cli_args` entries `APP_NAME` and `CHRONON_CONF_PATH`.
`teamsJson`/`confJson` are the parsed documents; `none` for `teamsJson`
means no `teams.json` exists at the repo root (the block is skipped), `none`
for `confJson` means the conf document cannot be read/parsed (fatal).
Non-string `metaData.name` values are not modelled (Python would stringify
them); no claim exercises that case. -/
def computeEnvironment (args : Args) (teamsJson confJson : Option Json) :
    Except String Environment :=
  if truthy args.repo then
    match teamsJson with
    | none => .ok {}
    | some teams_json =>
      let common_env := ((teams_json.getD "default" emptyObj).getD "common_env" emptyObj).toLayer
      if truthy args.conf && truthy args.mode then
        match split4 (lastN (pySplit (args.conf.getD "") '/') 4) with
        | none => .error ("ValueError: invalid conf path " ++ args.conf.getD "")
        | some (context, conf_type, team, _name) =>
          match confJson with
          | none => .error "ConfigError: cannot read conf document"
          | some conf_json =>
            match extractConfEnv conf_json (args.mode.getD "") with
            | .error e => .error e
            | .ok conf_env =>
              match extractTeamEnv teams_json team context (args.mode.getD "") with
              | .error e => .error e
              | .ok team_env =>
                let default_env :=
                  (((teams_json.getD "default" emptyObj).getD context emptyObj).getD
                    (args.mode.getD "") emptyObj).toLayer
                match conf_json.find? "metaData" with
                | some md =>
                  match md.find? "name" with
                  | some (Json.str name) =>
                    .ok { common_env := common_env, conf_env := conf_env,
                          team_env := team_env, default_env := default_env,
                          cli_args :=
                            [("APP_NAME", some (APP_NAME_TEMPLATE conf_type
                                (args.mode.getD "") context name)),
                             ("CHRONON_CONF_PATH",
                              some (args.repo.getD "" ++ "/" ++ args.conf.getD ""))] }
                  | some _ => .error "metaData.name is not a string"
                  | none => .error "KeyError: name"
                | none => .error "KeyError: metaData"
      else .ok { common_env := common_env }
  else .ok {}

/-- run.py lines 215-223: the explicit `--app-name` override always wins;
otherwise mode `metadata-export` forces the fixed literal; then the three
jar/class CLI values are recorded (possibly `None`). -/
def applyCliArgs (args : Args) (e : Environment) : Environment :=
  let e1 :=
    if truthy args.app_name then
      { e with cli_args := Layer.setItem e.cli_args "APP_NAME" args.app_name }
    else if args.mode = some "metadata-export" then
      { e with cli_args := Layer.setItem e.cli_args "APP_NAME" (some "chronon_metadata_export") }
    else e
  let c1 := Layer.setItem e1.cli_args "CHRONON_DRIVER_JAR" args.chronon_jar
  let c2 := Layer.setItem c1 "CHRONON_ONLINE_JAR" args.online_jar
  let c3 := Layer.setItem c2 "CHRONON_ONLINE_CLASS" args.online_class
  { e1 with cli_args := c3 }

/-- The fixed merge order of run.py line 224:
`['conf_env', 'team_env', 'default_env', 'common_env', 'cli_args']`. -/
def ORDER (e : Environment) : List Layer :=
  [e.conf_env, e.team_env, e.default_env, e.common_env, e.cli_args]

/-- `set_runtime_env` (run.py lines 166-233): build the five layers, then
walk them in `ORDER`, setting each variable in the process environment only
when it is not already present and its value is not `None`.  Returns the
mutated process environment (the print loop of lines 225-228 has no
environment effect). -/
def set_runtime_env (args : Args) (teamsJson confJson : Option Json) (env0 : Env) :
    Except String Env :=
  match computeEnvironment args teamsJson confJson with
  | .error e => .error e
  | .ok environment =>
    .ok ((ORDER (applyCliArgs args environment)).foldl applyLayer env0)

/-- The static route table (run.py lines 44-69): for each conf type, the
mapping from legal run mode to downstream subcommand. -/
def ROUTES : List (String × List (String × String)) :=
  [("group_bys",
    [("upload", "group-by-upload"),
     ("backfill", "group-by-backfill"),
     ("streaming", "group-by-streaming"),
     ("local-streaming", "group-by-streaming"),
     ("fetch", "fetch"),
     ("analyze", "analyze"),
     ("metadata-export", "metadata-export")]),
   ("joins",
    [("backfill", "join"),
     ("metadata-upload", "metadata-upload"),
     ("fetch", "fetch"),
     ("consistency-metrics-compute", "consistency-metrics-compute"),
     ("stats-summary", "stats-summary"),
     ("analyze", "analyze"),
     ("log-flattener", "log-flattener"),
     ("metadata-export", "metadata-export"),
     ("label-join", "label-join")]),
   ("staging_queries",
    [("backfill", "staging-query-backfill"),
     ("metadata-export", "metadata-export")])]

/-- The mode router: `ROUTES[conf_type][mode]` guarded by the membership
assertion of `Runner.__init__` (run.py lines 259-261, 279).  `none` models
the `KeyError` on an unknown conf type and the `AssertionError` on a mode
that is not legal for the conf type. -/
def route (conf_type mode : String) : Option String :=
  match alookup ROUTES conf_type with
  | none => none
  | some modes => alookup modes mode

/-- Outcome of the streaming pre-launch check in `Runner.run`
(run.py lines 286-315). -/
inductive StreamingAction where
  | noOp : StreamingAction
  | ambiguousError : StreamingAction
  | submit : StreamingAction
deriving DecidableEq

/-- One step of the grouping loop (run.py lines 291-300): append the record
to the bucket of its app name, creating the bucket on first sight. -/
def addToMap (m : List (String × List String)) (name : String) :
    List (String × List String) :=
  match alookup m name with
  | none => m ++ [(name, [name])]
  | some _ => m.map (fun kv => if kv.1 = name then (kv.1, kv.2 ++ [name]) else kv)

/-- `running_app_map`: records grouped by `app_name` (a record is represented
by its stripped `app_name`, the only field the check reads). -/
def buildRunningAppMap (parsed : List String) : List (String × List String) :=
  parsed.foldl addToMap []

/-- The streaming dedup check (run.py lines 286-308): `parsedLines` holds the
parse outcome of each line of the running-apps listing (`none` for lines that
fail to parse or lack `app_name`; those are skipped).  Exactly one record in
the bucket of the computed app name is an idempotent no-op, two or more are
the fatal `AssertionError` (`AmbiguousRunningJobError`), an empty bucket
falls through to launching the submit command. -/
def streamingCheck (appName : String) (parsedLines : List (Option String)) :
    StreamingAction :=
  let running_app_map := buildRunningAppMap (parsedLines.filterMap id)
  let filtered_apps := (alookup running_app_map appName).getD []
  if filtered_apps.length > 0 then
    if filtered_apps.length = 1 then .noOp else .ambiguousError
  else .submit

/-- Call trace of a function run under `retry_decorator` (run.py
lines 74-91): how many times the wrapped function was invoked, the sleeps
performed between attempts, and the final outcome (`none` = the last
exception propagates to the caller). -/
structure RetryTrace (α : Type) where
  calls : Nat
  sleeps : List Nat
  result : Option α
deriving DecidableEq

/-- The `while attempt <= retries` loop of `retry_decorator`, with
`gas = retries + 1 - attempt` as structural fuel (the loop guard
`attempt <= retries` holds exactly when `gas > 0`).  `f n` is the outcome of
the `n`-th invocation of the wrapped function (`none` = it raises).  On a
failure inside the loop the attempt counter is incremented and the thread
sleeps `attempt * backoff`; when the loop is exhausted the function is called
once more outside any `try`, so that call's exception propagates. -/
def retryGo {α : Type} (f : Nat → Option α) (backoff : Nat) :
    Nat → Nat → List Nat → RetryTrace α
  | 0, attempt, sleeps => { calls := attempt + 1, sleeps := sleeps, result := f attempt }
  | gas + 1, attempt, sleeps =>
    match f attempt with
    | some a => { calls := attempt + 1, sleeps := sleeps, result := some a }
    | none => retryGo f backoff gas (attempt + 1) (sleeps ++ [(attempt + 1) * backoff])

/-- A run of `retry_decorator(retries, backoff)` applied to a function whose
`n`-th call has outcome `f n`. -/
def retryRun {α : Type} (retries backoff : Nat) (f : Nat → Option α) : RetryTrace α :=
  retryGo f backoff (retries + 1) 0 []

/-- `download_jar` is wrapped as `@retry_decorator(retries=3, backoff=50)`
(run.py line 126). -/
def download_jar_retries : Nat := 3

/-- The base delay of the `download_jar` retry wrapper. -/
def download_jar_backoff : Nat := 50

/-- The decision core of `download_only_once` (run.py lines 104-123): whether
the `curl` GET download is performed, given whether a file already exists at
the local path, the remote `content-length` from the HEAD request, and the
local file size.  (The surrounding I/O — HEAD request, size reads — is the
input here.) -/
def download_only_once (fileExists : Bool) (remoteSize localSize : Nat) : Bool :=
  if fileExists then
    if localSize = remoteSize then false else true
  else true

/-- A sample `teams.json` document in the shape the repository documents
(a `default` team with `common_env` and per-context defaults, plus one
ordinary team). -/
def sampleTeams : Json := Json.obj
  [("default", Json.obj
     [("common_env", Json.obj [("VERSION", Json.str "latest"), ("X", Json.str "common_value")]),
      ("production", Json.obj [("backfill", Json.obj [("DRIVER_MEMORY", Json.str "15G")])])]),
   ("team_a", Json.obj
     [("production", Json.obj [("backfill", Json.obj [("EXECUTOR_CORES", Json.str "4")])])])]

/-- A sample conf document whose `modeToEnvMap.backfill` also defines `X`,
the variable `sampleTeams` defines in `common_env`. -/
def sampleConf : Json := Json.obj
  [("metaData", Json.obj
     [("name", Json.str "team_a.sample.v1"),
      ("modeToEnvMap", Json.obj
        [("backfill", Json.obj
           [("X", Json.str "conf_value"), ("EXECUTOR_MEMORY", Json.str "9G")])])])]

/-- CLI arguments of a plain backfill run against `sampleTeams`/`sampleConf`. -/
def sampleArgs : Args :=
  { repo := some "zipline", conf := some "production/joins/team_a/sample.v1",
    mode := some "backfill", app_name := none, chronon_jar := none,
    online_jar := none, online_class := none }

/-- A process environment defining no variables. -/
def emptyEnv : Env := fun _ => none

/-- The sleeps `retry_decorator` performs when failures continue, starting at
failure count `attempt` and running `gas` more loop iterations:
`(attempt+1)*backoff, (attempt+2)*backoff, ...`. -/
def sleepsFrom (backoff : Nat) : Nat → Nat → List Nat
  | _, 0 => []
  | attempt, g + 1 => (attempt + 1) * backoff :: sleepsFrom backoff (attempt + 1) g

/-- Occurrences of a name in the successfully parsed records. -/
def countName : List String → String → Nat
  | [], _ => 0
  | x :: rest, name => (if x = name then 1 else 0) + countName rest name

/-- The entries of `sampleConf`'s `metaData` object. -/
def sampleMetaEntries : List (String × Json) :=
  [("name", Json.str "team_a.sample.v1"),
   ("modeToEnvMap", Json.obj
     [("backfill", Json.obj
        [("X", Json.str "conf_value"), ("EXECUTOR_MEMORY", Json.str "9G")])])]

/-- The `team_a` object inside `sampleTeams`. -/
def teamAObj : Json := Json.obj
  [("production", Json.obj [("backfill", Json.obj [("EXECUTOR_CORES", Json.str "4")])])]

/-- The five layers `computeEnvironment` builds from the sample documents. -/
def sampleEnvironment : Environment :=
  { common_env := [("VERSION", some "latest"), ("X", some "common_value")],
    conf_env := [("X", some "conf_value"), ("EXECUTOR_MEMORY", some "9G")],
    default_env := [("DRIVER_MEMORY", some "15G")],
    team_env := [("EXECUTOR_CORES", some "4")],
    cli_args := [("APP_NAME", some "chronon_joins_backfill_production_team_a.sample.v1"),
                 ("CHRONON_CONF_PATH", some "zipline/production/joins/team_a/sample.v1")] }

/-- A process environment that already defines `X` before resolution. -/
def presetEnv : Env := fun k => if k = "X" then some "preexisting" else none

/-- CLI arguments whose conf path has only three `/`-separated segments. -/
def badArgs : Args :=
  { repo := some "zipline", conf := some "joins/team_a/sample.v1", mode := some "backfill",
    app_name := none, chronon_jar := none, online_jar := none, online_class := none }

/-- A conf document with no top-level `metaData` key. -/
def confNoMeta : Json := Json.obj [("aggregations", Json.null)]

/-- The merge-loop body never changes a variable the environment already
defines. -/
theorem applyLayer_pres (l : Layer) : ∀ (env : Env) (k v : String),
    env k = some v → applyLayer env l k = some v := by
  induction l with
  | nil => intro env k v h; simpa [applyLayer] using h
  | cons kv rest ih =>
    intro env k v h
    obtain ⟨k', v'⟩ := kv
    cases v' with
    | none => exact ih env k v h
    | some value =>
      show applyLayer (if env k' = none then Env.set env k' value else env) rest k = some v
      by_cases hk : env k' = none
      · rw [if_pos hk]
        apply ih
        show (if k = k' then some value else env k) = some v
        by_cases hkk : k = k'
        · subst hkk; rw [h] at hk; exact absurd hk (by simp)
        · rw [if_neg hkk]; exact h
      · rw [if_neg hk]; exact ih env k v h

/-- On a variable the environment does not define, the merge-loop body
installs the first non-null value the layer holds for it. -/
theorem applyLayer_unset (l : Layer) : ∀ (env : Env) (k : String),
    env k = none → applyLayer env l k = Layer.firstSet l k := by
  induction l with
  | nil => intro env k h; simpa [applyLayer, Layer.firstSet] using h
  | cons kv rest ih =>
    intro env k h
    obtain ⟨k', v'⟩ := kv
    cases v' with
    | none =>
      show applyLayer env rest k = Layer.firstSet rest k
      exact ih env k h
    | some value =>
      show applyLayer (if env k' = none then Env.set env k' value else env) rest k
        = if k' = k then some value else Layer.firstSet rest k
      by_cases hkk : k' = k
      · subst hkk
        rw [if_pos h, if_pos rfl]
        apply applyLayer_pres
        show (if k' = k' then some value else env k') = some value
        rw [if_pos rfl]
      · rw [if_neg hkk]
        by_cases he : env k' = none
        · rw [if_pos he]
          apply ih
          show (if k = k' then some value else env k) = none
          rw [if_neg (fun hh => hkk hh.symm)]; exact h
        · rw [if_neg he]; exact ih env k h

/-- Folding the merge loop over any layer sequence never changes a variable
the environment already defines. -/
theorem foldl_applyLayer_pres (ls : List Layer) : ∀ (env : Env) (k v : String),
    env k = some v → (ls.foldl applyLayer env) k = some v := by
  induction ls with
  | nil => intro env k v h; simpa using h
  | cons l ls ih =>
    intro env k v h
    exact ih _ k v (applyLayer_pres l env k v h)

/-- On an initially unset variable, the merge loop installs the value of the
FIRST layer in the order that holds a non-null value for it: each layer
writes into the very environment later layers are checked against. -/
theorem foldl_applyLayer_unset (ls : List Layer) : ∀ (env : Env) (k : String),
    env k = none → (ls.foldl applyLayer env) k = layersFirstSet ls k := by
  induction ls with
  | nil => intro env k h; simpa [layersFirstSet] using h
  | cons l ls ih =>
    intro env k h
    show (ls.foldl applyLayer (applyLayer env l)) k = layersFirstSet (l :: ls) k
    have h1 := applyLayer_unset l env k h
    cases hf : Layer.firstSet l k with
    | some v =>
      rw [hf] at h1
      rw [foldl_applyLayer_pres ls (applyLayer env l) k v h1]
      show some v = match Layer.firstSet l k with
        | some v => some v
        | none => layersFirstSet ls k
      rw [hf]
    | none =>
      rw [hf] at h1
      rw [ih (applyLayer env l) k h1]
      show layersFirstSet ls k = match Layer.firstSet l k with
        | some v => some v
        | none => layersFirstSet ls k
      rw [hf]

/-- Looking a key up after an append searches the left list first. -/
theorem alookup_append {α : Type} (l1 l2 : List (String × α)) (k : String) :
    alookup (l1 ++ l2) k = match alookup l1 k with
      | some v => some v
      | none => alookup l2 k := by
  induction l1 with
  | nil => rfl
  | cons kv rest ih =>
    by_cases h : kv.1 = k
    · simp [alookup, h]
    · simp [alookup, h, ih]

/-- In-place update of the entries holding key `k`: looking up `k` afterwards
finds the new value (when `k` was present). -/
theorem alookup_map_update_self (l : Layer) (k : String) (v : Option String) :
    ∀ (_ : (alookup l k).isSome = true),
    alookup (l.map (fun kv => if kv.1 = k then (k, v) else kv)) k = some v := by
  induction l with
  | nil => intro h; simp [alookup] at h
  | cons kv rest ih =>
    intro h
    by_cases hk : kv.1 = k
    · simp [alookup, hk]
    · have h' : (alookup rest k).isSome = true := by
        have e : alookup (kv :: rest) k = alookup rest k := by simp [alookup, hk]
        rwa [e] at h
      simp [alookup, hk, ih h']

/-- In-place update of the entries holding key `k'`: lookups of every other
key are unchanged. -/
theorem alookup_map_update_other (l : Layer) (k' k : String) (v : Option String)
    (hne : k' ≠ k) :
    alookup (l.map (fun kv => if kv.1 = k' then (k', v) else kv)) k = alookup l k := by
  induction l with
  | nil => rfl
  | cons kv rest ih =>
    by_cases hk : kv.1 = k'
    · have hkk : kv.1 ≠ k := by rw [hk]; exact hne
      simp [alookup, hk, hkk, hne, ih]
    · by_cases h2 : kv.1 = k
      · simp [alookup, hk, h2, Ne.symm hne, ih]
      · simp [alookup, hk, h2, ih]

/-- After a `setItem`, looking up the written key finds the written value. -/
theorem setItem_alookup_self (l : Layer) (k : String) (v : Option String) :
    alookup (Layer.setItem l k v) k = some v := by
  unfold Layer.setItem
  by_cases h : (alookup l k).isSome
  · rw [if_pos h]
    exact alookup_map_update_self l k v h
  · rw [if_neg h]
    rw [alookup_append]
    cases hh : alookup l k with
    | some w => rw [hh] at h; simp at h
    | none => simp [alookup]

/-- A `setItem` on one key leaves lookups of every other key unchanged. -/
theorem setItem_alookup_other (l : Layer) (k' k : String) (v : Option String)
    (hne : k' ≠ k) :
    alookup (Layer.setItem l k' v) k = alookup l k := by
  unfold Layer.setItem
  by_cases h : (alookup l k').isSome
  · rw [if_pos h]
    exact alookup_map_update_other l k' k v hne
  · rw [if_neg h]
    rw [alookup_append]
    cases hh : alookup l k with
    | some w => rfl
    | none => simp [alookup, hne]

/-- C4: the mode router returns the subcommand from the static route table
exactly when the `(confType, mode)` pair is present: `route "joins" "fetch"`
is `"fetch"`, `route "group_bys" "stats-summary"` fails (`stats-summary` is
not a legal mode for `group_bys`), an unknown conf type fails, and in
general the lookup succeeds with the table's subcommand iff the mode is in
the conf type's mode set. -/
theorem route_table_lookup :
    route "joins" "fetch" = some "fetch"
    ∧ route "group_bys" "stats-summary" = none
    ∧ route "unknown_conf_type" "backfill" = none
    ∧ ∀ (conf_type mode sub : String),
        route conf_type mode = some sub
          ↔ ∃ modes, alookup ROUTES conf_type = some modes
              ∧ alookup modes mode = some sub := by
  refine ⟨rfl, rfl, rfl, ?_⟩
  intro ct m sub
  unfold route
  cases h : alookup ROUTES ct with
  | none => simp [h]
  | some modes => simp [h]

/-- When every call fails, the retry loop runs all its iterations, sleeping
linearly, and the final out-of-loop call leaves a propagating exception. -/
theorem retryGo_all_fail {α : Type} (f : Nat → Option α) (backoff : Nat)
    (hf : ∀ n, f n = none) :
    ∀ (gas attempt : Nat) (sleeps : List Nat),
    retryGo f backoff gas attempt sleeps =
      { calls := attempt + gas + 1,
        sleeps := sleeps ++ sleepsFrom backoff attempt gas,
        result := none } := by
  intro gas
  induction gas with
  | zero =>
    intro attempt sleeps
    simp [retryGo, sleepsFrom, hf]
  | succ g ih =>
    intro attempt sleeps
    show (match f attempt with
      | some a => { calls := attempt + 1, sleeps := sleeps, result := some a }
      | none => retryGo f backoff g (attempt + 1) (sleeps ++ [(attempt + 1) * backoff]))
      = ({ calls := attempt + (g + 1) + 1,
           sleeps := sleeps ++ sleepsFrom backoff attempt (g + 1),
           result := none } : RetryTrace α)
    rw [hf attempt]
    rw [ih]
    simp [RetryTrace.mk.injEq, List.append_assoc]
    exact ⟨by omega, rfl⟩

/-- The wrapped function is called at most `attempt + gas + 1` more times. -/
theorem retryGo_calls_le {α : Type} (f : Nat → Option α) (backoff : Nat) :
    ∀ (gas attempt : Nat) (sleeps : List Nat),
    (retryGo f backoff gas attempt sleeps).calls ≤ attempt + gas + 1 := by
  intro gas
  induction gas with
  | zero => intro attempt sleeps; simp [retryGo]
  | succ g ih =>
    intro attempt sleeps
    show (match f attempt with
      | some a => ({ calls := attempt + 1, sleeps := sleeps, result := some a } : RetryTrace α)
      | none => retryGo f backoff g (attempt + 1) (sleeps ++ [(attempt + 1) * backoff])).calls
      ≤ attempt + (g + 1) + 1
    cases f attempt with
    | some a => show attempt + 1 ≤ attempt + (g + 1) + 1; omega
    | none =>
      calc (retryGo f backoff g (attempt + 1) (sleeps ++ [(attempt + 1) * backoff])).calls
          ≤ (attempt + 1) + g + 1 := ih (attempt + 1) _
        _ ≤ attempt + (g + 1) + 1 := by omega

/-- C8 (amended): a function wrapped with `retry_decorator(retries, backoff)`
is invoked at most `retries + 2` times — `1 + retries` attempts inside the
`while attempt <= retries` loop plus one final attempt after the loop — and
when every invocation fails it is invoked exactly `retries + 2` times, with
a linear sleep of (failure number) × backoff after each in-loop failure,
after which the final invocation's exception propagates to the caller.  For
`download_jar` (`retries=3, backoff=50`) that is 5 invocations, not 4. -/
theorem retry_decorator_call_count {α : Type} (retries backoff : Nat) (f : Nat → Option α) :
    (retryRun retries backoff f).calls ≤ retries + 2
    ∧ ((∀ n, f n = none) →
        retryRun retries backoff f =
          { calls := retries + 2,
            sleeps := sleepsFrom backoff 0 (retries + 1),
            result := none }) := by
  constructor
  · have h := retryGo_calls_le f backoff (retries + 1) 0 []
    unfold retryRun
    omega
  · intro hf
    unfold retryRun
    rw [retryGo_all_fail f backoff hf (retries + 1) 0 []]
    simp [RetryTrace.mk.injEq]

/-- C8 counterexample: with the `download_jar` parameters (`retries=3`) and
an always-failing download, the wrapped function is invoked 5 times, not at
most `1 + 3`. -/
theorem retry_decorator_five_calls :
    (retryRun download_jar_retries download_jar_backoff (fun _ => (none : Option Unit))).calls = 5
    ∧ ¬ (retryRun download_jar_retries download_jar_backoff
          (fun _ => (none : Option Unit))).calls ≤ 1 + 3 := by
  exact ⟨rfl, by decide⟩

/-- C8 witness: the amended count and sleep schedule, evaluated at the
`download_jar` parameters. -/
theorem retry_decorator_call_count_witness :
    retryRun download_jar_retries download_jar_backoff (fun _ => (none : Option Unit)) =
      { calls := 5, sleeps := [50, 100, 150, 200], result := none } := by
  have h := (retry_decorator_call_count download_jar_retries download_jar_backoff
    (fun _ => (none : Option Unit))).2 (fun n => rfl)
  exact h.trans rfl

/-- C9: `download_only_once` skips the GET exactly when a file already exists
at the local path and its size equals the remote `content-length`; with no
local file or differing sizes it downloads. -/
theorem download_only_once_skip_iff (fileExists : Bool) (remoteSize localSize : Nat) :
    download_only_once fileExists remoteSize localSize = false
      ↔ (fileExists = true ∧ localSize = remoteSize) := by
  unfold download_only_once
  cases fileExists <;> by_cases h : localSize = remoteSize <;> simp [h]

/-- Updating the values of the entries with key `x` (keeping keys intact)
changes lookups of `x` by the update and leaves other lookups alone. -/
theorem alookup_map_keyfix (m : List (String × List String)) (x : String)
    (f : List String → List String) (k : String) :
    alookup (m.map (fun kv => if kv.1 = x then (kv.1, f kv.2) else kv)) k
      = if k = x then (alookup m k).map f else alookup m k := by
  induction m with
  | nil => by_cases h : k = x <;> simp [alookup, h]
  | cons kv rest ih =>
    by_cases hk : kv.1 = x
    · by_cases hkx : kv.1 = k
      · have hx : k = x := by rw [← hkx]; exact hk
        simp [alookup, hk, hkx, hx, ih]
      · have hx : ¬ k = x := fun hh => hkx (hk.trans hh.symm)
        have hx' : ¬ x = k := fun hh => hx hh.symm
        simp [alookup, hk, hkx, hx, hx', ih]
    · by_cases hkx : kv.1 = k
      · have hx : ¬ k = x := by rw [← hkx]; exact hk
        simp [alookup, hk, hkx, hx]
      · simp [alookup, hk, hkx, ih]

/-- One grouping step grows the bucket of the record's name by one and leaves
every other bucket unchanged (measured through bucket length). -/
theorem addToMap_bucket (m : List (String × List String)) (x name : String) :
    ((alookup (addToMap m x) name).getD []).length
      = ((alookup m name).getD []).length + (if x = name then 1 else 0) := by
  unfold addToMap
  cases hx : alookup m x with
  | none =>
    rw [alookup_append]
    by_cases h : name = x
    · subst h
      rw [hx]
      simp [alookup]
    · have h' : ¬ x = name := fun hh => h hh.symm
      cases hm : alookup m name with
      | some b => simp [h']
      | none => simp [alookup, h']
  | some b =>
    show ((alookup (m.map (fun kv => if kv.1 = x then (kv.1, kv.2 ++ [x]) else kv)) name).getD
        []).length = _
    rw [alookup_map_keyfix m x (fun bs => bs ++ [x]) name]
    by_cases h : name = x
    · subst h
      rw [hx]
      simp
    · have h' : ¬ x = name := fun hh => h hh.symm
      simp [h, h']

/-- Folding the grouping loop: the final bucket length for a name is its
initial bucket length plus the number of records carrying that name. -/
theorem buildMap_bucket (parsed : List String) :
    ∀ (m : List (String × List String)) (name : String),
    ((alookup (parsed.foldl addToMap m) name).getD []).length
      = ((alookup m name).getD []).length + countName parsed name := by
  induction parsed with
  | nil => intro m name; simp [countName]
  | cons x rest ih =>
    intro m name
    show ((alookup (rest.foldl addToMap (addToMap m x)) name).getD []).length = _
    rw [ih, addToMap_bucket]
    show _ = _ + ((if x = name then 1 else 0) + countName rest name)
    omega

/-- C5: the streaming dedup check, over the successfully parsed records of
the running-apps listing: exactly one record with the computed app name is
an idempotent no-op (no submit), two or more fail with the ambiguous-state
assertion, zero matches launch the submit command. -/
theorem streamingCheck_cases (appName : String) (parsedLines : List (Option String)) :
    (countName (parsedLines.filterMap id) appName = 1 →
      streamingCheck appName parsedLines = .noOp)
    ∧ (2 ≤ countName (parsedLines.filterMap id) appName →
      streamingCheck appName parsedLines = .ambiguousError)
    ∧ (countName (parsedLines.filterMap id) appName = 0 →
      streamingCheck appName parsedLines = .submit) := by
  have hb : ((alookup (buildRunningAppMap (parsedLines.filterMap id)) appName).getD []).length
      = countName (parsedLines.filterMap id) appName := by
    unfold buildRunningAppMap
    rw [buildMap_bucket]
    simp [alookup]
  refine ⟨?_, ?_, ?_⟩ <;> intro h
  · have h1 : 0 < ((alookup (buildRunningAppMap (parsedLines.filterMap id)) appName).getD []).length := by omega
    have h2 : ((alookup (buildRunningAppMap (parsedLines.filterMap id)) appName).getD []).length = 1 := by omega
    simp [streamingCheck, h1, h2]
  · have h1 : 0 < ((alookup (buildRunningAppMap (parsedLines.filterMap id)) appName).getD []).length := by omega
    have h2 : ¬ ((alookup (buildRunningAppMap (parsedLines.filterMap id)) appName).getD []).length = 1 := by omega
    simp [streamingCheck, h1, h2]
  · have h1 : ¬ 0 < ((alookup (buildRunningAppMap (parsedLines.filterMap id)) appName).getD []).length := by omega
    simp [streamingCheck, h1]

/-- C5 witness: one matching record among the parsed lines is a no-op, with
an unparseable line and a non-matching record present. -/
theorem streamingCheck_cases_witness :
    streamingCheck "chronon_group_bys_streaming_production_team_a.sample.v1"
      [some "chronon_group_bys_streaming_production_team_a.sample.v1", none, some "other_app"]
      = .noOp :=
  (streamingCheck_cases "chronon_group_bys_streaming_production_team_a.sample.v1"
    [some "chronon_group_bys_streaming_production_team_a.sample.v1", none, some "other_app"]).1
    (by decide)

/-- C1 (amended): when the process environment does not define `X`, the value
applied by `set_runtime_env` for a variable defined (non-null) in both
`conf_env` and `common_env` is the `conf_env` value: the merge loop walks
`conf_env, team_env, default_env, common_env, cli_args` in that order and
writes into the very environment later layers are guarded by, so the FIRST
layer in the order that defines a variable wins, not the last. -/
theorem conf_env_wins_over_common_env (args : Args) (teamsJson confJson : Option Json)
    (env0 : Env) (e : Environment) (X v w : String)
    (hcompute : computeEnvironment args teamsJson confJson = .ok e)
    (h0 : env0 X = none)
    (hconf : Layer.firstSet (applyCliArgs args e).conf_env X = some v)
    (_hcommon : Layer.firstSet (applyCliArgs args e).common_env X = some w) :
    (set_runtime_env args teamsJson confJson env0).map (fun f => f X) = .ok (some v) := by
  unfold set_runtime_env
  rw [hcompute]
  show Except.ok (((ORDER (applyCliArgs args e)).foldl applyLayer env0) X) = Except.ok (some v)
  rw [foldl_applyLayer_unset _ env0 X h0]
  simp [ORDER, layersFirstSet, hconf]

/-- C1 counterexample: with `X` defined in `conf_env` (value `conf_value`)
and in `common_env` (value `common_value`) and the process environment not
defining `X`, resolution applies the `conf_env` value, not the `common_env`
value the claim predicts. -/
theorem conf_env_beats_common_env_counterexample :
    (set_runtime_env sampleArgs (some sampleTeams) (some sampleConf) emptyEnv).map
      (fun f => f "X") = .ok (some "conf_value")
    ∧ Layer.firstSet sampleEnvironment.common_env "X" = some "common_value"
    ∧ Layer.firstSet sampleEnvironment.conf_env "X" = some "conf_value"
    ∧ ("conf_value" : String) ≠ "common_value" := by
  refine ⟨rfl, rfl, rfl, by decide⟩

/-- C1 witness: the amended precedence, evaluated on the sample documents. -/
theorem conf_env_wins_over_common_env_witness :
    (set_runtime_env sampleArgs (some sampleTeams) (some sampleConf) emptyEnv).map
      (fun f => f "X") = .ok (some "conf_value") :=
  conf_env_wins_over_common_env sampleArgs (some sampleTeams) (some sampleConf) emptyEnv
    sampleEnvironment "X" "conf_value" "common_value" rfl rfl rfl rfl

/-- C2: a variable already present in the process environment before
resolution is never overwritten, whatever the five layers define for it. -/
theorem set_runtime_env_preserves_preexisting (args : Args) (teamsJson confJson : Option Json)
    (env0 : Env) (k v : String) (e : Environment)
    (hcompute : computeEnvironment args teamsJson confJson = .ok e)
    (hpre : env0 k = some v) :
    (set_runtime_env args teamsJson confJson env0).map (fun f => f k) = .ok (some v) := by
  unfold set_runtime_env
  rw [hcompute]
  show Except.ok (((ORDER (applyCliArgs args e)).foldl applyLayer env0) k) = Except.ok (some v)
  rw [foldl_applyLayer_pres _ env0 k v hpre]

/-- C2 witness: `X` preset in the environment survives resolution although
`conf_env` and `common_env` both define it. -/
theorem set_runtime_env_preserves_preexisting_witness :
    (set_runtime_env sampleArgs (some sampleTeams) (some sampleConf) presetEnv).map
      (fun f => f "X") = .ok (some "preexisting") :=
  set_runtime_env_preserves_preexisting sampleArgs (some sampleTeams) (some sampleConf)
    presetEnv "X" "preexisting" sampleEnvironment rfl rfl

/-- `l[-4:]` of a list shorter than 4 is the list itself. -/
theorem lastN_of_short {α : Type} (l : List α) (h : l.length < 4) : lastN l 4 = l := by
  unfold lastN
  have h0 : l.length - 4 = 0 := by omega
  rw [h0, List.drop_zero]

/-- Four-way unpacking fails on a list shorter than 4. -/
theorem split4_short (l : List String) (h : l.length < 4) : split4 l = none := by
  match l with
  | [] => rfl
  | [a] => rfl
  | [a, b] => rfl
  | [a, b, c] => rfl
  | a :: b :: c :: d :: rest => simp [List.length_cons] at h; omega

/-- C3: with a repo root, a conf path and a mode supplied and the teams
document present, a conf path with fewer than four `/`-separated segments
makes `set_runtime_env` fail with an error (the `ValueError` of the four-way
unpacking, logged and re-raised), rather than defaulting any segment. -/
theorem short_conf_path_fails (args : Args) (teams_json : Json) (confJson : Option Json)
    (env0 : Env)
    (hrepo : truthy args.repo = true)
    (hconf : truthy args.conf = true)
    (hmode : truthy args.mode = true)
    (hshort : (pySplit (args.conf.getD "") '/').length < 4) :
    ∃ msg, set_runtime_env args (some teams_json) confJson env0 = .error msg := by
  have hs : split4 (lastN (pySplit (args.conf.getD "") '/') 4) = none := by
    rw [lastN_of_short _ hshort]
    exact split4_short _ hshort
  unfold set_runtime_env computeEnvironment
  simp only [hrepo, hconf, hmode, hs, Bool.and_self, if_true]
  exact ⟨_, rfl⟩

/-- C3 witness: a three-segment conf path aborts the run. -/
theorem short_conf_path_fails_witness :
    ∃ msg, set_runtime_env badArgs (some sampleTeams) (some sampleConf) emptyEnv
      = .error msg :=
  short_conf_path_fails badArgs sampleTeams (some sampleConf) emptyEnv rfl rfl rfl (by decide)

/-- C6 counterexample: a teams document without the requested team key makes
the team-layer extraction raise `KeyError` — it does NOT yield an empty
mapping as the claim states for "absent at any level". -/
theorem extractTeamEnv_missing_team_counterexample :
    extractTeamEnv (Json.obj [("default", emptyObj)]) "team_a" "production" "backfill"
      = .error "KeyError: team_a"
    ∧ extractTeamEnv (Json.obj [("default", emptyObj)]) "team_a" "production" "backfill"
      ≠ .ok [] := by
  refine ⟨rfl, ?_⟩
  intro h
  rw [show extractTeamEnv (Json.obj [("default", emptyObj)]) "team_a" "production" "backfill"
      = Except.error "KeyError: team_a" from rfl] at h
  exact Except.noConfusion h

/-- C6 (amended): the team-layer extraction yields an empty mapping when the
context level or the mode level of the nested structure is absent, provided
the team key itself is present; a missing team key is a `KeyError`, fatal to
the run. -/
theorem extractTeamEnv_empty_when_lower_levels_missing (teams_json teamObj : Json)
    (team context mode : String)
    (hteam : teams_json.find? team = some teamObj)
    (habsent : (teamObj.getD context emptyObj).find? mode = none) :
    extractTeamEnv teams_json team context mode = .ok [] := by
  unfold extractTeamEnv
  rw [hteam]
  show Except.ok (((teamObj.getD context emptyObj).getD mode emptyObj).toLayer) = .ok []
  have h2 : Json.getD (Json.getD teamObj context emptyObj) mode emptyObj = emptyObj := by
    show (Json.find? (Json.getD teamObj context emptyObj) mode).getD emptyObj = emptyObj
    rw [habsent]
    rfl
  rw [h2]
  rfl

/-- C6 witness: `team_a` is present but has no `staging` context, so the
extraction yields the empty layer. -/
theorem extractTeamEnv_empty_witness :
    extractTeamEnv sampleTeams "team_a" "staging" "backfill" = .ok [] :=
  extractTeamEnv_empty_when_lower_levels_missing sampleTeams teamAObj "team_a" "staging"
    "backfill" rfl rfl

/-- C10: with repo root, conf path and mode supplied, a conf document lacking
the top-level `metaData` key makes resolution fail (the chained `.get` hits
Python `None`), while a present `metaData` object with a missing
`modeToEnvMap`, or a missing mode inside it, yields an empty `conf_env`. -/
theorem conf_env_metaData_required :
    (∀ (args : Args) (teams_json conf_json : Json) (env0 : Env)
       (context conf_type team nm : String),
       truthy args.repo = true →
       truthy args.conf = true →
       truthy args.mode = true →
       split4 (lastN (pySplit (args.conf.getD "") '/') 4)
         = some (context, conf_type, team, nm) →
       conf_json.find? "metaData" = none →
       ∃ msg, set_runtime_env args (some teams_json) (some conf_json) env0 = .error msg)
    ∧ (∀ (conf_json : Json) (mdEntries : List (String × Json)) (mode : String),
        conf_json.find? "metaData" = some (Json.obj mdEntries) →
        alookup mdEntries "modeToEnvMap" = none →
        extractConfEnv conf_json mode = .ok [])
    ∧ (∀ (conf_json : Json) (mdEntries m2e : List (String × Json)) (mode : String),
        conf_json.find? "metaData" = some (Json.obj mdEntries) →
        alookup mdEntries "modeToEnvMap" = some (Json.obj m2e) →
        alookup m2e mode = none →
        extractConfEnv conf_json mode = .ok []) := by
  refine ⟨?_, ?_, ?_⟩
  · intro args teams_json conf_json env0 context conf_type team nm hrepo hconf hmode hsplit hmeta
    unfold set_runtime_env computeEnvironment extractConfEnv
    simp only [hrepo, hconf, hmode, hsplit, hmeta, Bool.and_self, if_true]
    exact ⟨_, rfl⟩
  · intro conf_json mdEntries mode hmeta hm2e
    unfold extractConfEnv
    rw [hmeta]
    show Except.ok ((((Json.obj mdEntries).getD "modeToEnvMap" emptyObj).getD mode
      emptyObj).toLayer) = .ok []
    have h1 : (Json.obj mdEntries).getD "modeToEnvMap" emptyObj = emptyObj := by
      show (alookup mdEntries "modeToEnvMap").getD emptyObj = emptyObj
      rw [hm2e]
      rfl
    rw [h1]
    rfl
  · intro conf_json mdEntries m2e mode hmeta hm2e hmode
    unfold extractConfEnv
    rw [hmeta]
    show Except.ok ((((Json.obj mdEntries).getD "modeToEnvMap" emptyObj).getD mode
      emptyObj).toLayer) = .ok []
    have h1 : (Json.obj mdEntries).getD "modeToEnvMap" emptyObj = Json.obj m2e := by
      show (alookup mdEntries "modeToEnvMap").getD emptyObj = Json.obj m2e
      rw [hm2e]
      rfl
    rw [h1]
    have h2 : (Json.obj m2e).getD mode emptyObj = emptyObj := by
      show (alookup m2e mode).getD emptyObj = emptyObj
      rw [hmode]
      rfl
    rw [h2]
    rfl

/-- C10 witness: a conf document without `metaData` aborts the run. -/
theorem conf_env_metaData_required_witness :
    ∃ msg, set_runtime_env sampleArgs (some sampleTeams) (some confNoMeta) emptyEnv
      = .error msg :=
  conf_env_metaData_required.1 sampleArgs sampleTeams confNoMeta emptyEnv
    "production" "joins" "team_a" "sample.v1" rfl rfl rfl rfl rfl

/-- `Json.find?` on an object is the association-list lookup. -/
theorem Json.find?_obj (entries : List (String × Json)) (k : String) :
    (Json.obj entries).find? k = alookup entries k := rfl

/-- C7: the `APP_NAME` value resolved into the `cli_args` layer (run.py
lines 209-219) is the template `chronon_{confType}_{mode}_{context}_{name}`
for ordinary modes; mode `metadata-export` with no explicit app name forces
the fixed literal `chronon_metadata_export`; an explicit `--app-name`
override always wins over both. -/
theorem app_name_resolution :
    (∀ (args : Args) (teams_json conf_json teamObj : Json)
       (context conf_type team nm : String) (mdEntries : List (String × Json))
       (name : String),
       truthy args.repo = true →
       truthy args.conf = true →
       truthy args.mode = true →
       split4 (lastN (pySplit (args.conf.getD "") '/') 4)
         = some (context, conf_type, team, nm) →
       conf_json.find? "metaData" = some (Json.obj mdEntries) →
       teams_json.find? team = some teamObj →
       alookup mdEntries "name" = some (Json.str name) →
       truthy args.app_name = false →
       args.mode ≠ some "metadata-export" →
       (computeEnvironment args (some teams_json) (some conf_json)).map
           (fun e => alookup (applyCliArgs args e).cli_args "APP_NAME")
         = .ok (some (some (APP_NAME_TEMPLATE conf_type (args.mode.getD "") context name))))
    ∧ (∀ (args : Args) (e : Environment),
        truthy args.app_name = false →
        args.mode = some "metadata-export" →
        alookup (applyCliArgs args e).cli_args "APP_NAME"
          = some (some "chronon_metadata_export"))
    ∧ (∀ (args : Args) (e : Environment) (s : String),
        args.app_name = some s →
        s ≠ "" →
        alookup (applyCliArgs args e).cli_args "APP_NAME" = some (some s)) := by
  refine ⟨?_, ?_, ?_⟩
  · intro args teams_json conf_json teamObj context conf_type team nm mdEntries name
      hrepo hconf hmode hsplit hmeta hteam hname happ hnotme
    unfold computeEnvironment extractConfEnv extractTeamEnv
    simp only [hrepo, hconf, hmode, hsplit, Bool.and_self, if_true]
    simp only [hmeta, hteam, Json.find?_obj, hname, Except.map]
    unfold applyCliArgs
    simp only [happ, Bool.false_eq_true, if_false]
    rw [if_neg hnotme]
    rw [setItem_alookup_other _ _ _ _ (by decide)]
    rw [setItem_alookup_other _ _ _ _ (by decide)]
    rw [setItem_alookup_other _ _ _ _ (by decide)]
    rfl
  · intro args e happ hmode
    unfold applyCliArgs
    simp only [happ, Bool.false_eq_true, if_false, hmode, reduceIte]
    rw [setItem_alookup_other _ _ _ _ (by decide)]
    rw [setItem_alookup_other _ _ _ _ (by decide)]
    rw [setItem_alookup_other _ _ _ _ (by decide)]
    exact setItem_alookup_self _ _ _
  · intro args e s happ hs
    have ht : truthy args.app_name = true := by
      rw [happ]
      show (if s = "" then false else true) = true
      rw [if_neg hs]
    unfold applyCliArgs
    simp only [ht, if_true]
    rw [setItem_alookup_other _ _ _ _ (by decide)]
    rw [setItem_alookup_other _ _ _ _ (by decide)]
    rw [setItem_alookup_other _ _ _ _ (by decide)]
    rw [setItem_alookup_self]
    rw [happ]

/-- C7 witness: on the sample documents, an ordinary backfill run resolves
the templated app name. -/
theorem app_name_resolution_witness :
    (computeEnvironment sampleArgs (some sampleTeams) (some sampleConf)).map
        (fun e => alookup (applyCliArgs sampleArgs e).cli_args "APP_NAME")
      = .ok (some (some (APP_NAME_TEMPLATE "joins" "backfill" "production"
          "team_a.sample.v1"))) :=
  app_name_resolution.1 sampleArgs sampleTeams sampleConf teamAObj "production" "joins"
    "team_a" "sample.v1" sampleMetaEntries "team_a.sample.v1"
    rfl rfl rfl rfl rfl rfl rfl rfl (by decide)
